import Mathlib

/-!
Verification of the audio output streaming pipeline
(`Source/Core/AudioCommon/SurroundDecoder.cpp` and
`Source/Core/AudioCommon/OpenALStream.cpp`).

Shallow embedding conventions:
* `uint32_t` arithmetic is `Nat` with explicit `% 2^32` at every operation
  that can wrap; `size_t` quantities are plain `Nat`.
* `float` samples are embedded as exact rationals `ℚ`; the C++ arithmetic on
  them (division by `SHRT_MAX`, multiplication by `1 << 15` / `1 << 31`,
  comparisons, `static_cast<int>` truncation) is carried out exactly.
* The decoded FIFO (`FixedSizeQueue<float, 32768> m_decoded_fifo`) is
  embedded as a `List ℚ`; `push` appends at the back, `pop_front` takes from
  the front.
* The DPL2 frequency-domain decoder (`DPL2FSDecoder`, not part of the
  sources under study) is kept fully abstract: functions that use it are
  parameterised over an arbitrary decoder state type `D` and an arbitrary
  step function `decode : D → (Nat → ℚ) → D × (Nat → ℚ)`.
-/

namespace AudioCommon

/-- Modulus of `uint32_t` arithmetic. -/
def UINT32_MOD : Nat := 2 ^ 32

/-- Embeds `SurroundDecoder::QueryFramesNeededForSurroundOutput`
(SurroundDecoder.cpp lines 26-39).  `frameBlockSize` is `m_frame_block_size`,
`fifoSize` is `m_decoded_fifo.size()` (a `size_t`), `outputFrames` is the
`uint32_t` argument; `SURROUND_CHANNELS = 6`.  The `uint32_t` subtraction
`a - b` is rendered as `(a + 2^32 - b) % 2^32` (exact for operands `< 2^32`,
which theorems assume of the `uint32_t` inputs). -/
def queryFramesNeededForSurroundOutput (frameBlockSize fifoSize outputFrames : Nat) : Nat :=
  if fifoSize < outputFrames * 6 % UINT32_MOD then
    let framesNeeded := (outputFrames + UINT32_MOD - fifoSize % UINT32_MOD / 6) % UINT32_MOD
    ((framesNeeded + frameBlockSize) % UINT32_MOD + UINT32_MOD
        - framesNeeded % frameBlockSize) % UINT32_MOD
  else 0

/-- Truncation toward zero: the semantics of C++ `static_cast<int>` applied
to a floating-point value (here an exact rational). -/
def ratTruncate (q : ℚ) : ℤ := if 0 ≤ q then ⌊q⌋ else ⌈q⌉

/-- Embeds the int16 → float conversion of `SurroundDecoder::PutFrames`
(SurroundDecoder.cpp line 53-54):
`in[i] / static_cast<float>(std::numeric_limits<short>::max())`,
i.e. division by 32767 (not 32768). -/
def shortToFloat (x : ℤ) : ℚ := (x : ℚ) / 32767

/-- Embeds one filling of `m_float_conversion_buffer` (SurroundDecoder.cpp
lines 51-55): entry `i < m_frame_block_size * STEREO_CHANNELS` holds
`shortToFloat (input (i + frameIndex * 2))`.

Modelled from the spec: `DPL2FSDecoder` is not among the sources under
study; per the spec each decode call "consum[es] exactly one fixed block",
so the stale buffer contents beyond `frameBlockSize * 2` (which the decoder
never reads) are rendered as `0`. -/
def floatConversionBuffer (input : Nat → ℤ) (frameIndex frameBlockSize : Nat) : Nat → ℚ :=
  fun i => if i < frameBlockSize * 2 then shortToFloat (input (i + frameIndex * 2)) else 0

/-- Embeds the channel-remapping push loop of `SurroundDecoder::PutFrames`
(SurroundDecoder.cpp lines 66-74): for each frame `i` of the decoded block,
the six samples pushed onto `m_decoded_fifo` are the decoder-order channels
`0 (FL), 2 (FR), 1 (FC), 5 (LFE), 3 (BL), 4 (BR)`. -/
def remapBlock (frameBlockSize : Nat) (dpl2 : Nat → ℚ) : List ℚ :=
  (List.range frameBlockSize).flatMap fun i =>
    [dpl2 (i * 6 + 0), dpl2 (i * 6 + 2), dpl2 (i * 6 + 1),
     dpl2 (i * 6 + 5), dpl2 (i * 6 + 3), dpl2 (i * 6 + 4)]

/-- The fixed permutation table of the remap: output position `j` of a frame
receives decoder channel `remapTable j`. -/
def remapTable (j : Nat) : Nat := [0, 2, 1, 5, 3, 4].getD j 0

/-- `static_cast<int>` applied to an unsigned (`size_t`/`uint32_t`) value:
truncate to 32 bits, then reinterpret as two's-complement.  Values with bit
31 set come out negative. -/
def int32Cast (n : Nat) : ℤ :=
  if n % 2 ^ 32 < 2 ^ 31 then ((n % 2 ^ 32 : Nat) : ℤ)
  else ((n % 2 ^ 32 : Nat) : ℤ) - 2 ^ 32

/-- Embeds the `while (remaining_frames > 0)` loop of
`SurroundDecoder::PutFrames` (SurroundDecoder.cpp lines 45-78).  The source
keeps `remaining_frames` as an `int` that starts at
`static_cast<int>(num_frames_in)` and is decremented by
`static_cast<int>(m_frame_block_size)` per iteration; it is only ever
inspected through `> 0`, so once the initial cast has been performed (see
`putFrames`) a `Nat` with truncated subtraction renders it exactly.
`frameIndex` is `frame_index` (a `size_t`), `d` the abstract `DPL2FSDecoder`
state and `fifo` the decoded FIFO.  When `int32Cast m_frame_block_size ≤ 0`
(block size 0, or at least `2^31` so its `int` cast is negative) the source
loop never terminates (or overflows `remaining_frames`, undefined
behaviour); that degenerate case is rendered as an immediate exit and
excluded by hypothesis in every theorem.

Modelled from the spec: `FixedSizeQueue::push` (Common/FixedSizeQueue.h, not
among the sources under study) is rendered as appending to an unbounded
list, per the spec's FIFO invariant that "it never overflows its fixed
capacity — producers are throttled by the scheduler". -/
def putFramesGo {D : Type} (decode : D → (Nat → ℚ) → D × (Nat → ℚ))
    (frameBlockSize : Nat) (input : Nat → ℤ)
    (remaining frameIndex : Nat) (d : D) (fifo : List ℚ) : D × List ℚ :=
  if h : 0 < int32Cast frameBlockSize ∧ 0 < remaining then
    let step := decode d (floatConversionBuffer input frameIndex frameBlockSize)
    putFramesGo decode frameBlockSize input
      (remaining - (int32Cast frameBlockSize).toNat)
      (frameIndex + frameBlockSize) step.1 (fifo ++ remapBlock frameBlockSize step.2)
  else (d, fifo)
termination_by remaining
decreasing_by omega

/-- Embeds `SurroundDecoder::PutFrames` (SurroundDecoder.cpp lines 42-79).
Line 45 narrows the `size_t` argument:
`int remaining_frames = static_cast<int>(num_frames_in);` — rendered by
entering the loop with `(int32Cast numFramesIn).toNat`, which is `0` (no
iteration, as for the source's negative or zero `int`) whenever the cast is
not positive, e.g. for `2^31 ≤ numFramesIn < 2^32`. -/
def putFrames {D : Type} (decode : D → (Nat → ℚ) → D × (Nat → ℚ))
    (frameBlockSize : Nat) (input : Nat → ℤ) (numFramesIn : Nat)
    (d : D) (fifo : List ℚ) : D × List ℚ :=
  putFramesGo decode frameBlockSize input (int32Cast numFramesIn).toNat 0 d fifo

/-- Number of iterations of the `PutFrames` loop (= number of `decode`
calls) as a function of the already-cast `remaining`, following the
recursion of `putFramesGo` exactly. -/
def countBlocks (frameBlockSize remaining : Nat) : Nat :=
  if h : 0 < int32Cast frameBlockSize ∧ 0 < remaining then
    countBlocks frameBlockSize (remaining - (int32Cast frameBlockSize).toNat) + 1
  else 0
termination_by remaining
decreasing_by omega

/-- Embeds `SurroundDecoder::ReceiveFrames` (SurroundDecoder.cpp lines
81-89): pop `numFramesOut * SURROUND_CHANNELS` samples off the front of the
decoded FIFO into the output.

Modelled from the spec: `FixedSizeQueue::pop_front` (Common/FixedSizeQueue.h,
not among the sources under study) on an empty queue is the undefined
underflow the spec forbids ("the caller must have supplied enough input via
`PutFrames` first, else behavior is undefined"); it is rendered as `none`. -/
def receiveFrames (fifo : List ℚ) (numFramesOut : Nat) : Option (List ℚ × List ℚ) :=
  if numFramesOut * 6 ≤ fifo.length then
    some (fifo.take (numFramesOut * 6), fifo.drop (numFramesOut * 6))
  else none

end AudioCommon

namespace OpenAL

/-!
Model of `OpenALStream::SoundLoop` (OpenALStream.cpp lines 207-556) and
`OpenALStream::Stop` (lines 131-156).  One iteration of the `while
(m_run_thread.IsSet())` loop is a pure function from the loop state and an
oracle of external responses (mixer results, sink buffer-processed counts,
AL errors, source play state) to the next state plus the list of OpenAL
calls issued, in order.  `OAL_NUM_SOURCES = 3` (the arrays are initialised
`{0, 0, 0}`); the pool size `OAL_BUFFERS` is kept as a parameter of the
configuration.
-/

/-- The sample encodings submitted to the sink:
`AL_FORMAT_51CHN32`/`AL_FORMAT_STEREO_FLOAT32` float data,
`AL_FORMAT_51CHN32` X-Fi 32-bit-integer data / `AL_FORMAT_STEREO32`, and
`AL_FORMAT_51CHN16`/`AL_FORMAT_STEREO16` 16-bit data. -/
inductive Encoding where
  | float32
  | int32
  | int16
deriving DecidableEq

/-- Result of `CheckALError` after `palBufferData`: `AL_NO_ERROR`,
`AL_INVALID_ENUM` (the encoding/channel-layout was rejected), or any other
error code. -/
inductive ALError where
  | noError
  | invalidEnum
  | otherError
deriving DecidableEq

/-- Sample data handed to `palBufferData`: float samples or integer
(32- or 16-bit) samples. -/
inductive BufferPayload where
  | floats (data : List ℚ)
  | ints (data : List ℤ)
deriving DecidableEq

/-- The externally visible OpenAL calls an iteration makes, in order. -/
inductive Action where
  | setPitch (source : Nat) (rate : ℚ)
  | sleep
  | unqueueBuffers (source count : Nat)
  | bufferData (source bufferIdx : Nat) (enc : Encoding) (frames : Nat)
      (payload : BufferPayload)
  | queueBuffer (source bufferIdx : Nat)
  | sourcePlay (source : Nat)
  | sourceStop (source : Nat)
  | detachBuffers (source : Nat)
  | warnSurroundUnsupported
deriving DecidableEq

/-- Configuration fixed before the loop body: pool size `OAL_BUFFERS`,
capability probes (`AL_EXT_float32`, X-Fi fixed-32), `m_audio_stretch`,
`iLatency` and `bDSPHLE`. -/
structure LoopConfig where
  oalBuffers : Nat
  float32Capable : Bool
  fixed32Capable : Bool
  audioStretch : Bool
  latency : Nat
  usingHLE : Bool

/-- Mutable loop state: `use_surround` plus, per source, `frequency`,
`frames_per_buffer`, `next_buffer`, `num_buffers_queued` and the element
count of `m_realtime_buffers[i]`. -/
structure LoopState where
  useSurround : Bool
  frequency : Fin 3 → Nat
  framesPerBuffer : Fin 3 → Nat
  nextBuffer : Fin 3 → Nat
  numBuffersQueued : Fin 3 → Nat
  realtimeBufferSize : Fin 3 → Nat
deriving DecidableEq

/-- External responses consumed by one surround-path iteration. -/
structure SurroundInput where
  currentSpeed : ℚ
  numBuffersProcessed : Nat
  renderedFrames : Nat
  dpl2 : Nat → ℚ
  bufferDataErr : ALError
  sourcePlaying : Bool

/-- External responses consumed by one stereo-path step of one source. -/
structure SourceInput where
  mixerRate : Nat
  currentSpeed : ℚ
  numBuffersProcessed : Nat
  renderedFrames : Nat
  mixedData : Nat → ℤ
  bufferDataErr : ALError
  sourcePlaying : Bool

/-- Embeds the pitch update (OpenALStream.cpp lines 295-305 and 466-476):
with audio stretch the pitch is pinned to 1, otherwise it tracks the
emulation speed when that exceeds the 10% floor. -/
def pitchActions (source : Nat) (audioStretch : Bool) (rate : ℚ) : List Action :=
  if audioStretch then [Action.setPitch source 1]
  else if rate > 1 / 10 then [Action.setPitch source rate]
  else []

/-- Embeds the `static_cast<int>` with prior clamping of the float32 → int16
output path (OpenALStream.cpp lines 372-381): scale by `1 << 15`, clamp to
`[SHRT_MIN, SHRT_MAX]`, truncate. -/
def floatToS16 (x : ℚ) : ℤ :=
  if x * 32768 > 32767 then 32767
  else if x * 32768 < -32768 then -32768
  else AudioCommon.ratTruncate (x * 32768)

/-- Embeds the float32 → int32 output path (OpenALStream.cpp lines 351-363):
scale by `INT64_C(1) << 31`, clamp to `[INT_MIN, INT_MAX]`, truncate. -/
def floatToS32 (x : ℚ) : ℤ :=
  if x * 2 ^ 31 > 2 ^ 31 - 1 then 2 ^ 31 - 1
  else if x * 2 ^ 31 < -2 ^ 31 then -2 ^ 31
  else AudioCommon.ratTruncate (x * 2 ^ 31)

/-- Embeds the LFE zeroing loop (OpenALStream.cpp lines 337-340):
`dpl2[i * SURROUND_CHANNELS + 3] = 0` for each rendered frame. -/
def zeroLFE (renderedFrames : Nat) (dpl2 : Nat → ℚ) : Nat → ℚ :=
  fun i => if i < renderedFrames * 6 ∧ i % 6 = 3 then 0 else dpl2 i

/-- Embeds the encoding choice of the surround path (OpenALStream.cpp lines
342-385): float32 data if `AL_EXT_float32` is present, else X-Fi 32-bit
fixed point, else 16-bit; the payload is the (LFE-zeroed) decoded block
converted accordingly. -/
def surroundPayload (cfg : LoopConfig) (renderedFrames : Nat) (dpl2 : Nat → ℚ) :
    Encoding × BufferPayload :=
  if cfg.float32Capable then
    (Encoding.float32, BufferPayload.floats ((List.range (renderedFrames * 6)).map dpl2))
  else if cfg.fixed32Capable then
    (Encoding.int32,
      BufferPayload.ints ((List.range (renderedFrames * 6)).map fun i => floatToS32 (dpl2 i)))
  else
    (Encoding.int16,
      BufferPayload.ints ((List.range (renderedFrames * 6)).map fun i => floatToS16 (dpl2 i)))

/-- Embeds one iteration of the surround branch of `SoundLoop`
(OpenALStream.cpp lines 293-409).  In order: pitch update; blocked-pool
check (sleep and `continue`); unqueue of processed buffers; `MixSurround`
(its result is the oracle `renderedFrames`); skip when fewer than
`frames_per_buffer[0]` frames were rendered; LFE zeroing; encoding-specific
`palBufferData`; on `AL_INVALID_ENUM` a warning and `use_surround = false`;
`palSourceQueueBuffers`; queue-count/cursor update; play-state recovery. -/
def surroundIter (cfg : LoopConfig) (st : LoopState) (inp : SurroundInput) :
    LoopState × List Action :=
  let pitch := pitchActions 0 cfg.audioStretch inp.currentSpeed
  if st.numBuffersQueued 0 = cfg.oalBuffers ∧ inp.numBuffersProcessed = 0 then
    (st, pitch ++ [Action.sleep])
  else
    let st1 :=
      if inp.numBuffersProcessed ≠ 0 then
        { st with numBuffersQueued := (Function.update st.numBuffersQueued 0
            (st.numBuffersQueued 0 - inp.numBuffersProcessed)) }
      else st
    let acts1 := pitch ++
      (if inp.numBuffersProcessed ≠ 0 then [Action.unqueueBuffers 0 inp.numBuffersProcessed]
       else [])
    if inp.renderedFrames < st1.framesPerBuffer 0 then (st1, acts1)
    else
      let ep := surroundPayload cfg inp.renderedFrames (zeroLFE inp.renderedFrames inp.dpl2)
      let acts2 := acts1 ++ [Action.bufferData 0 (st1.nextBuffer 0) ep.1 inp.renderedFrames ep.2]
      let fellBack := inp.bufferDataErr = ALError.invalidEnum
      let st2 := if fellBack then { st1 with useSurround := false } else st1
      let acts3 := acts2 ++ (if fellBack then [Action.warnSurroundUnsupported] else [])
      let acts4 := acts3 ++ [Action.queueBuffer 0 (st2.nextBuffer 0)]
      let st3 := { st2 with
        numBuffersQueued := Function.update st2.numBuffersQueued 0 (st2.numBuffersQueued 0 + 1),
        nextBuffer := Function.update st2.nextBuffer 0
          ((st2.nextBuffer 0 + 1) % cfg.oalBuffers) }
      let acts5 := acts4 ++ (if inp.sourcePlaying then [] else [Action.sourcePlay 0])
      (st3, acts5)

/-- The scale factor of the WiiMote 16→32-bit widening
(OpenALStream.cpp line 523): `std::numeric_limits<long>::max() /
std::numeric_limits<short>::max()` with 32-bit `long` (the file is
`_WIN32`-only). -/
def wiimoteScale : ℤ := (2 ^ 31 - 1) / 32767

/-- Embeds one source's step of the stereo branch of `SoundLoop`
(OpenALStream.cpp lines 412-553).  In order: sample-rate change detection
and reset (`continue`); pitch update; blocked-pool check; unqueue of
processed buffers; `MixDMA`/`MixStreaming`/`MixWiiMote` (source 2 mixes
nothing when DSP-HLE is off); skip when zero frames were rendered;
`palBufferData` (source 2 on X-Fi widened to 32-bit, else 16-bit);
`palSourceQueueBuffers`; queue-count/cursor update; play-state recovery. -/
def sourceStep (cfg : LoopConfig) (src : Fin 3) (st : LoopState) (inp : SourceInput) :
    LoopState × List Action :=
  if st.frequency src ≠ inp.mixerRate then
    let fpb :=
      if cfg.latency > 10 then inp.mixerRate / 1000 * cfg.latency / cfg.oalBuffers
      else inp.mixerRate / 1000 * 1 / cfg.oalBuffers
    ({ st with
        frequency := Function.update st.frequency src inp.mixerRate,
        framesPerBuffer := Function.update st.framesPerBuffer src fpb,
        numBuffersQueued := Function.update st.numBuffersQueued src 0,
        nextBuffer := Function.update st.nextBuffer src 0,
        realtimeBufferSize := Function.update st.realtimeBufferSize src (fpb * 2) },
     [Action.sourceStop src.val, Action.detachBuffers src.val])
  else
    let pitch := pitchActions src.val cfg.audioStretch inp.currentSpeed
    if st.numBuffersQueued src = cfg.oalBuffers ∧ inp.numBuffersProcessed = 0 then
      (st, pitch ++ [Action.sleep])
    else
      let st1 :=
        if inp.numBuffersProcessed ≠ 0 then
          { st with numBuffersQueued := (Function.update st.numBuffersQueued src
              (st.numBuffersQueued src - inp.numBuffersProcessed)) }
        else st
      let acts1 := pitch ++
        (if inp.numBuffersProcessed ≠ 0 then
          [Action.unqueueBuffers src.val inp.numBuffersProcessed]
         else [])
      let rendered := if src = 2 ∧ ¬cfg.usingHLE then 0 else inp.renderedFrames
      if rendered = 0 then (st1, acts1)
      else
        let ep : Encoding × BufferPayload :=
          if src = 2 ∧ cfg.fixed32Capable then
            (Encoding.int32, BufferPayload.ints
              ((List.range (rendered * 2)).map fun i => inp.mixedData i * wiimoteScale))
          else
            (Encoding.int16, BufferPayload.ints ((List.range (rendered * 2)).map inp.mixedData))
        let acts2 := acts1 ++
          [Action.bufferData src.val (st1.nextBuffer src) ep.1 rendered ep.2,
           Action.queueBuffer src.val (st1.nextBuffer src)]
        let st2 := { st1 with
          numBuffersQueued := Function.update st1.numBuffersQueued src
            (st1.numBuffersQueued src + 1),
          nextBuffer := Function.update st1.nextBuffer src
            ((st1.nextBuffer src + 1) % cfg.oalBuffers) }
        (st2, acts2 ++ (if inp.sourcePlaying then [] else [Action.sourcePlay src.val]))

/-- One full iteration of the `SoundLoop` while-body (OpenALStream.cpp lines
290-555): the surround branch when `use_surround`, else the three-source
stereo loop. -/
def soundLoopIter (cfg : LoopConfig) (st : LoopState) (sInp : SurroundInput)
    (inps : Fin 3 → SourceInput) : LoopState × List Action :=
  if st.useSurround then surroundIter cfg st sInp
  else
    let r0 := sourceStep cfg 0 st (inps 0)
    let r1 := sourceStep cfg 1 r0.1 (inps 1)
    let r2 := sourceStep cfg 2 r1.1 (inps 2)
    (r2.1, r0.2 ++ r1.2 ++ r2.2)

/-- The encodings of the `palBufferData` calls in an action list, in call
order. -/
def bufferEncodings (acts : List Action) : List Encoding :=
  acts.filterMap fun a =>
    match a with
    | Action.bufferData _ _ e _ _ => some e
    | _ => none

/-- `true` exactly on `queueBuffer` actions. -/
def Action.isQueue : Action → Bool
  | Action.queueBuffer _ _ => true
  | _ => false

/-- Resources touched by `OpenALStream::Stop`: the run flag, whether
`m_thread` has an associated thread (joinable), and the liveness of sources,
buffers, context and device. -/
structure StreamResources where
  runThreadSet : Bool
  threadJoinable : Bool
  sourcesLive : Bool
  buffersLive : Bool
  contextLive : Bool
  deviceOpen : Bool
deriving DecidableEq

/-- `std::thread::join` on an object with no associated thread throws
`std::system_error`. -/
inductive StopError where
  | joinOnNotJoinable
deriving DecidableEq

/-- Embeds `OpenALStream::Stop` (OpenALStream.cpp lines 131-156): clear
`m_run_thread`, wake the loop, join the thread unconditionally (which fails
when `Start` never launched one), then stop/detach/delete every source and
its buffers and destroy the context and close the device. -/
def stopStream (s : StreamResources) : Except StopError StreamResources :=
  let s1 := { s with runThreadSet := false }
  if s1.threadJoinable then
    Except.ok
      { s1 with threadJoinable := false, sourcesLive := false, buffersLive := false,
                contextLive := false, deviceOpen := false }
  else Except.error StopError.joinOnNotJoinable

end OpenAL

open AudioCommon
open OpenAL

/-- Closed form of `queryFramesNeededForSurroundOutput` for in-range
`uint32_t` inputs: `0` when the FIFO already covers the request, else
`B * (s / B + 1)` where `s` is the shortfall in frames. -/
theorem queryFrames_eq (B fifoSize outputFrames : Nat) (hB : 0 < B)
    (hof : outputFrames * 6 < UINT32_MOD) (hfifo : fifoSize < UINT32_MOD)
    (hsum : outputFrames + B < UINT32_MOD) :
    queryFramesNeededForSurroundOutput B fifoSize outputFrames =
      if outputFrames * 6 ≤ fifoSize then 0
      else B * ((outputFrames - fifoSize / 6) / B + 1) := by
  unfold queryFramesNeededForSurroundOutput
  rw [Nat.mod_eq_of_lt hof, Nat.mod_eq_of_lt hfifo]
  by_cases hcov : outputFrames * 6 ≤ fifoSize
  · rw [if_neg (by omega), if_pos hcov]
  · rw [if_pos (by omega), if_neg hcov]
    set s := outputFrames - fifoSize / 6 with hs
    have hq : fifoSize / 6 < outputFrames := by
      rw [Nat.div_lt_iff_lt_mul (by norm_num)]
      omega
    have hs1 : 1 ≤ s := by omega
    have hsof : s ≤ outputFrames := by omega
    have e1 : outputFrames + UINT32_MOD - fifoSize / 6 = s + UINT32_MOD := by omega
    rw [e1, Nat.add_mod_right, Nat.mod_eq_of_lt (show s < UINT32_MOD by omega)]
    show ((s + B) % UINT32_MOD + UINT32_MOD - s % B) % UINT32_MOD = B * (s / B + 1)
    rw [Nat.mod_eq_of_lt (show s + B < UINT32_MOD by omega)]
    have hmod : s % B ≤ s := Nat.mod_le s B
    have e3 : s + B + UINT32_MOD - s % B = (s + B - s % B) + UINT32_MOD := by omega
    rw [e3, Nat.add_mod_right,
      Nat.mod_eq_of_lt (show s + B - s % B < UINT32_MOD by omega)]
    have hdm := Nat.div_add_mod s B
    have hr : B * (s / B + 1) = B * (s / B) + B := by ring
    omega

/-- `static_cast<int>` is the identity on values below `2^31`. -/
theorem int32Cast_of_lt (n : Nat) (h : n < 2 ^ 31) : int32Cast n = (n : ℤ) := by
  rw [int32Cast, Nat.mod_eq_of_lt (by omega), if_pos h]

theorem int32Cast_toNat_of_lt (n : Nat) (h : n < 2 ^ 31) : (int32Cast n).toNat = n := by
  rw [int32Cast_of_lt n h, Int.toNat_natCast]

/-- `static_cast<int>` of a value in `[2^31, 2^32)` is negative, so the
`PutFrames` loop starting from it runs zero iterations. -/
theorem int32Cast_toNat_of_wrap (n : Nat) (h1 : 2 ^ 31 ≤ n) (h2 : n < 2 ^ 32) :
    (int32Cast n).toNat = 0 := by
  rw [int32Cast, Nat.mod_eq_of_lt h2, if_neg (by omega)]
  omega

/-- One unfolding of the `PutFrames` loop when it runs an iteration. -/
theorem putFramesGo_step {D : Type} (decode : D → (Nat → ℚ) → D × (Nat → ℚ))
    (B : Nat) (input : Nat → ℤ) (remaining frameIndex : Nat) (d : D) (fifo : List ℚ)
    (h : 0 < int32Cast B ∧ 0 < remaining) :
    putFramesGo decode B input remaining frameIndex d fifo =
      putFramesGo decode B input (remaining - (int32Cast B).toNat) (frameIndex + B)
        (decode d (floatConversionBuffer input frameIndex B)).1
        (fifo ++ remapBlock B (decode d (floatConversionBuffer input frameIndex B)).2) := by
  rw [putFramesGo, dif_pos h]

/-- One unfolding of the `PutFrames` loop when it exits. -/
theorem putFramesGo_exit {D : Type} (decode : D → (Nat → ℚ) → D × (Nat → ℚ))
    (B : Nat) (input : Nat → ℤ) (remaining frameIndex : Nat) (d : D) (fifo : List ℚ)
    (h : ¬(0 < int32Cast B ∧ 0 < remaining)) :
    putFramesGo decode B input remaining frameIndex d fifo = (d, fifo) := by
  rw [putFramesGo, dif_neg h]

/-- The step unfolding for a block size whose `int` cast is itself: the
practically relevant `0 < B < 2^31` regime. -/
theorem putFramesGo_step_small {D : Type} (decode : D → (Nat → ℚ) → D × (Nat → ℚ))
    (B : Nat) (input : Nat → ℤ) (remaining frameIndex : Nat) (d : D) (fifo : List ℚ)
    (hB : 0 < B) (hB31 : B < 2 ^ 31) (hr : 0 < remaining) :
    putFramesGo decode B input remaining frameIndex d fifo =
      putFramesGo decode B input (remaining - B) (frameIndex + B)
        (decode d (floatConversionBuffer input frameIndex B)).1
        (fifo ++ remapBlock B (decode d (floatConversionBuffer input frameIndex B)).2) := by
  rw [putFramesGo_step decode B input remaining frameIndex d fifo
      ⟨by rw [int32Cast_of_lt B hB31]; exact_mod_cast hB, hr⟩,
    int32Cast_toNat_of_lt B hB31]

theorem countBlocks_step (B remaining : Nat) (h : 0 < int32Cast B ∧ 0 < remaining) :
    countBlocks B remaining = countBlocks B (remaining - (int32Cast B).toNat) + 1 := by
  rw [countBlocks, dif_pos h]

theorem countBlocks_step_small (B remaining : Nat) (hB : 0 < B) (hB31 : B < 2 ^ 31)
    (hr : 0 < remaining) :
    countBlocks B remaining = countBlocks B (remaining - B) + 1 := by
  rw [countBlocks_step B remaining
      ⟨by rw [int32Cast_of_lt B hB31]; exact_mod_cast hB, hr⟩,
    int32Cast_toNat_of_lt B hB31]

theorem countBlocks_exit (B remaining : Nat) (h : ¬(0 < int32Cast B ∧ 0 < remaining)) :
    countBlocks B remaining = 0 := by
  rw [countBlocks, dif_neg h]

/-- Each decoded block pushes exactly `frameBlockSize * 6` samples. -/
theorem remapBlock_length (B : Nat) (dpl2 : Nat → ℚ) :
    (remapBlock B dpl2).length = B * 6 := by
  rw [remapBlock, List.length_flatMap]
  simp [Function.comp_def, List.sum_replicate, smul_eq_mul, Nat.mul_comm]

/-- The `PutFrames` loop appends `6 * B` samples to the FIFO per iteration. -/
theorem putFramesGo_fifo_length {D : Type} (decode : D → (Nat → ℚ) → D × (Nat → ℚ))
    (B : Nat) (input : Nat → ℤ) :
    ∀ (remaining frameIndex : Nat) (d : D) (fifo : List ℚ),
      (putFramesGo decode B input remaining frameIndex d fifo).2.length
        = fifo.length + 6 * B * countBlocks B remaining := by
  intro remaining
  induction remaining using Nat.strong_induction_on with
  | _ remaining ih =>
    intro frameIndex d fifo
    by_cases h : 0 < int32Cast B ∧ 0 < remaining
    · have ht : 0 < (int32Cast B).toNat := by omega
      rw [putFramesGo_step decode B input remaining frameIndex d fifo h,
        countBlocks_step B remaining h,
        ih (remaining - (int32Cast B).toNat) (by omega)]
      rw [List.length_append, remapBlock_length]
      ring
    · rw [putFramesGo_exit decode B input remaining frameIndex d fifo h,
        countBlocks_exit B remaining h]
      ring

/-- On an input that is exactly `k` whole blocks the loop runs `k` times. -/
theorem countBlocks_mul (B : Nat) (hB : 0 < B) (hB31 : B < 2 ^ 31) :
    ∀ k, countBlocks B (B * k) = k := by
  intro k
  induction k with
  | zero => rw [countBlocks_exit B (B * 0) (by omega)]
  | succ k ih =>
    rw [countBlocks_step_small B (B * (k + 1)) hB hB31 (by positivity)]
    have e : B * (k + 1) - B = B * k := by ring_nf; omega
    rw [e, ih]

/-- The loop runs `⌈remaining / B⌉` times: one iteration per whole block of
input plus one more for any trailing partial block. -/
theorem countBlocks_eq_ceil (B : Nat) (hB : 0 < B) (hB31 : B < 2 ^ 31) :
    ∀ remaining, countBlocks B remaining = (remaining + B - 1) / B := by
  intro remaining
  induction remaining using Nat.strong_induction_on with
  | _ remaining ih =>
    by_cases h0 : remaining = 0
    · rw [h0, countBlocks_exit B 0 (by omega)]
      rw [Nat.div_eq_of_lt (by omega)]
    · rw [countBlocks_step_small B remaining hB hB31 (by omega)]
      have e1 : remaining + B - 1 = (remaining - 1) + B := by omega
      rw [e1, Nat.add_div_right _ hB]
      by_cases hle : remaining ≤ B
      · rw [countBlocks_exit B (remaining - B) (by omega),
          Nat.div_eq_of_lt (by omega)]
      · rw [ih (remaining - B) (by omega)]
        have e2 : remaining - B + B - 1 = remaining - 1 := by omega
        rw [e2]

/-- Two inputs that agree on the frames actually supplied produce the same
`PutFrames` result, provided the input is a whole number of blocks. -/
theorem putFramesGo_input_agree {D : Type} (decode : D → (Nat → ℚ) → D × (Nat → ℚ))
    (B : Nat) (hB : 0 < B) (hB31 : B < 2 ^ 31) (input input' : Nat → ℤ) :
    ∀ (remaining frameIndex : Nat) (d : D) (fifo : List ℚ),
      B ∣ remaining →
      (∀ j, frameIndex * 2 ≤ j → j < (frameIndex + remaining) * 2 → input j = input' j) →
      putFramesGo decode B input remaining frameIndex d fifo
        = putFramesGo decode B input' remaining frameIndex d fifo := by
  intro remaining
  induction remaining using Nat.strong_induction_on with
  | _ remaining ih =>
    intro frameIndex d fifo hdvd hagree
    by_cases h0 : remaining = 0
    · rw [putFramesGo_exit decode B input _ _ d fifo (by omega),
        putFramesGo_exit decode B input' _ _ d fifo (by omega)]
    · have hBr : B ≤ remaining := Nat.le_of_dvd (by omega) hdvd
      have hbuf : floatConversionBuffer input frameIndex B
          = floatConversionBuffer input' frameIndex B := by
        funext i
        unfold floatConversionBuffer
        by_cases hi : i < B * 2
        · rw [if_pos hi, if_pos hi, hagree (i + frameIndex * 2) (by omega) (by nlinarith)]
        · rw [if_neg hi, if_neg hi]
      rw [putFramesGo_step_small decode B input remaining frameIndex d fifo hB hB31 (by omega),
        putFramesGo_step_small decode B input' remaining frameIndex d fifo hB hB31 (by omega),
        hbuf]
      exact ih (remaining - B) (by omega) (frameIndex + B) _ _
        (by exact (Nat.dvd_sub' hdvd dvd_rfl))
        (fun j h1 h2 => hagree j (by omega) (by omega))


/-- C1 counterexample.  With block size 4, an empty FIFO and
`output_frames = 4`, the shortfall is 4 frames (24 samples); the smallest
multiple of the block size covering it is 4 (appending `4 * 6 = 24`
samples), yet `QueryFramesNeededForSurroundOutput` returns 8. -/
theorem c1_counterexample :
    queryFramesNeededForSurroundOutput 4 0 4 = 8 ∧
    4 % 4 = 0 ∧ 4 * 6 ≤ 0 + 4 * 6 ∧ (4 : Nat) < 8 := by
  refine ⟨?_, by norm_num, by norm_num, by norm_num⟩
  decide

/-- C1 amended: when the FIFO holds at least `output_frames * 6` samples the
query returns 0; otherwise, writing `s` for the shortfall in frames, it
returns `s + B - s % B`: the smallest multiple of the block size `B` that is
STRICTLY GREATER than `s`.  When `s` is itself a multiple of `B` this is one
block more than the smallest covering multiple. -/
theorem c1_query_rounds_up_strictly (B fifoSize outputFrames : Nat) (hB : 0 < B)
    (hof : outputFrames * 6 < UINT32_MOD) (hfifo : fifoSize < UINT32_MOD)
    (hsum : outputFrames + B < UINT32_MOD) :
    (outputFrames * 6 ≤ fifoSize →
      queryFramesNeededForSurroundOutput B fifoSize outputFrames = 0) ∧
    (fifoSize < outputFrames * 6 →
      let s := outputFrames - fifoSize / 6
      let r := queryFramesNeededForSurroundOutput B fifoSize outputFrames
      r = B * (s / B + 1) ∧ r % B = 0 ∧ s < r ∧ r ≤ s + B ∧
      ∀ m, m % B = 0 → s < m → r ≤ m) := by
  rw [queryFrames_eq B fifoSize outputFrames hB hof hfifo hsum]
  constructor
  · intro hcov
    rw [if_pos hcov]
  · intro hlt
    rw [if_neg (by omega)]
    set s := outputFrames - fifoSize / 6 with hs
    have hdm := Nat.div_add_mod s B
    have hr : B * (s / B + 1) = B * (s / B) + B := by ring
    have hml : s % B < B := Nat.mod_lt s hB
    refine ⟨rfl, by simp [Nat.mul_mod_right], by omega, by omega, ?_⟩
    intro m hmB hsm
    have hk := Nat.div_add_mod m B
    have hdiv : s / B < m / B := by
      rw [Nat.div_lt_iff_lt_mul hB]
      have : m / B * B = B * (m / B) := Nat.mul_comm _ _
      omega
    have h2 : B * (s / B + 1) ≤ B * (m / B) := Nat.mul_le_mul_left B hdiv
    omega

/-- C1 witness: instantiation of the amended theorem at block size 4, FIFO
holding 30 samples, 12 requested output frames (shortfall 7 frames). -/
theorem c1_witness :
    0 < 4 ∧ 12 * 6 < UINT32_MOD ∧ 30 < UINT32_MOD ∧ 12 + 4 < UINT32_MOD ∧
    (30 < 12 * 6 →
      let s := 12 - 30 / 6
      let r := queryFramesNeededForSurroundOutput 4 30 12
      r = 4 * (s / 4 + 1) ∧ r % 4 = 0 ∧ s < r ∧ r ≤ s + 4 ∧
      ∀ m, m % 4 = 0 → s < m → r ≤ m) := by
  refine ⟨by norm_num, by decide, by decide, by decide, ?_⟩
  exact (c1_query_rounds_up_strictly 4 30 12 (by norm_num) (by decide) (by decide) (by decide)).2

/-- C2 counterexample.  Block size 2, empty FIFO, `output_frames = 2^31 - 1`
(all well-defined inputs): the query asks for `2^31` stereo frames, but
`PutFrames(in, 2^31)` starts with
`int remaining_frames = static_cast<int>(num_frames_in)`, which wraps
negative, so zero blocks are decoded, the FIFO stays empty, and the
subsequent `ReceiveFrames` pops from an empty FIFO — the underflow the
claim declares unreachable. -/
theorem c2_counterexample :
    queryFramesNeededForSurroundOutput 2 ([] : List ℚ).length (2 ^ 31 - 1) = 2 ^ 31 ∧
    (putFrames (fun (d : Unit) _ => (d, fun _ => (0 : ℚ))) 2 (fun _ => 0)
        (queryFramesNeededForSurroundOutput 2 ([] : List ℚ).length (2 ^ 31 - 1)) () []).2
      = [] ∧
    receiveFrames
        (putFrames (fun (d : Unit) _ => (d, fun _ => (0 : ℚ))) 2 (fun _ => 0)
          (queryFramesNeededForSurroundOutput 2 ([] : List ℚ).length (2 ^ 31 - 1)) () []).2
        (2 ^ 31 - 1) = none := by
  have hq : queryFramesNeededForSurroundOutput 2 ([] : List ℚ).length (2 ^ 31 - 1)
      = 2 ^ 31 := by decide
  have hput : (putFrames (fun (d : Unit) _ => (d, fun _ => (0 : ℚ))) 2 (fun _ => 0)
      (queryFramesNeededForSurroundOutput 2 ([] : List ℚ).length (2 ^ 31 - 1)) () []).2
      = [] := by
    rw [hq, putFrames, int32Cast_toNat_of_wrap (2 ^ 31) (by norm_num) (by norm_num),
      putFramesGo_exit _ _ _ _ _ _ _ (by omega)]
  refine ⟨hq, hput, ?_⟩
  rw [hput, receiveFrames, if_neg (by decide)]

/-- C2 amended: whenever the query's answer fits a 32-bit `int` — which
`output_frames + block_size < 2^31` guarantees — `PutFrames` of exactly the
returned number of stereo frames leaves the decoded FIFO holding at least
`output_frames * 6` samples and `ReceiveFrames output_frames` succeeds (the
underflow branch is unreachable); for larger requests the `static_cast<int>`
at the top of `PutFrames` wraps negative, nothing is decoded, and
`ReceiveFrames` underflows.  Universally quantified over the abstract DPL2
decoder. -/
theorem c2_protocol_no_underflow {D : Type} (decode : D → (Nat → ℚ) → D × (Nat → ℚ))
    (B : Nat) (input : Nat → ℤ) (d : D) (fifo : List ℚ) (outputFrames : Nat)
    (hB : 0 < B) (hof : outputFrames * 6 < UINT32_MOD)
    (hlen : fifo.length < UINT32_MOD) (hsum31 : outputFrames + B < 2 ^ 31) :
    let fifo2 := (putFrames decode B input
      (queryFramesNeededForSurroundOutput B fifo.length outputFrames) d fifo).2
    outputFrames * 6 ≤ fifo2.length ∧
      (receiveFrames fifo2 outputFrames).isSome = true := by
  intro fifo2
  have hU : UINT32_MOD = 2 ^ 32 := rfl
  have hq := queryFrames_eq B fifo.length outputFrames hB hof hlen (by omega)
  have hNle : queryFramesNeededForSurroundOutput B fifo.length outputFrames
      ≤ outputFrames + B := by
    rw [hq]
    split_ifs with hcov
    · omega
    · have hdm := Nat.div_add_mod (outputFrames - fifo.length / 6) B
      have hr : B * ((outputFrames - fifo.length / 6) / B + 1)
          = B * ((outputFrames - fifo.length / 6) / B) + B := by ring
      omega
  have hge : outputFrames * 6 ≤ fifo2.length := by
    have hlen2 : fifo2.length = fifo.length + 6 * B *
        countBlocks B (queryFramesNeededForSurroundOutput B fifo.length outputFrames) := by
      unfold_let fifo2
      rw [putFrames,
        int32Cast_toNat_of_lt (queryFramesNeededForSurroundOutput B fifo.length outputFrames)
          (by omega),
        putFramesGo_fifo_length]
    by_cases hcov : outputFrames * 6 ≤ fifo.length
    · rw [if_pos hcov] at hq
      rw [hq, countBlocks_exit B 0 (by omega)] at hlen2
      omega
    · rw [if_neg hcov] at hq
      rw [hq, countBlocks_mul B hB (by omega) ((outputFrames - fifo.length / 6) / B + 1)]
        at hlen2
      have hr2 : 6 * B * ((outputFrames - fifo.length / 6) / B + 1)
          = 6 * (B * ((outputFrames - fifo.length / 6) / B)) + 6 * B := by ring
      have hdm := Nat.div_add_mod (outputFrames - fifo.length / 6) B
      have hml : (outputFrames - fifo.length / 6) % B < B := Nat.mod_lt _ hB
      have hdm6 := Nat.div_add_mod fifo.length 6
      have hq6 : fifo.length / 6 < outputFrames := by
        rw [Nat.div_lt_iff_lt_mul (by norm_num)]
        omega
      omega
  refine ⟨hge, ?_⟩
  rw [receiveFrames, if_pos hge, Option.isSome_some]

/-- C2 witness: block size 2, empty FIFO, one requested output frame, the
trivial decoder; the query returns 2, `PutFrames` appends 12 samples and
`ReceiveFrames 1` succeeds. -/
theorem c2_witness :
    0 < 2 ∧ 1 * 6 < UINT32_MOD ∧ ([] : List ℚ).length < UINT32_MOD ∧ 1 + 2 < 2 ^ 31 ∧
    (let fifo2 := (putFrames (fun (d : Unit) _ => (d, fun _ => (0 : ℚ))) 2 (fun _ => 0)
      (queryFramesNeededForSurroundOutput 2 ([] : List ℚ).length 1) () []).2
    1 * 6 ≤ fifo2.length ∧ (receiveFrames fifo2 1).isSome = true) :=
  ⟨by norm_num, by decide, by decide, by norm_num,
    c2_protocol_no_underflow (fun (d : Unit) _ => (d, fun _ => (0 : ℚ))) 2 (fun _ => 0) () [] 1
      (by norm_num) (by decide) (by decide) (by norm_num)⟩

/-- C3 counterexample.  With block size 2 and a single input frame
(`num_frames_in = 1`, not a multiple of the block size):
(a) a decode-call-counting decoder shows `PutFrames` performs 1 decode call,
not `floor(1 / 2) = 0`; and
(b) two inputs that agree on the 2 supplied samples but differ at sample
index 3 (beyond the supplied frame) produce different FIFO contents, so the
decode reads frames beyond the `num_frames_in` frames supplied. -/
theorem c3_counterexample :
    (putFrames (fun (d : Nat) _ => (d + 1, fun _ => (0 : ℚ))) 2 (fun _ => 0) 1 0 []).1 = 1 ∧
    (1 : Nat) / 2 = 0 ∧
    (∀ j, j < 1 * 2 → (fun _ => (0 : ℤ)) j = (fun j => if j < 2 then (0 : ℤ) else 32767) j) ∧
    (putFrames (fun (d : Unit) buf => (d, fun _ => buf 3)) 2 (fun _ => (0 : ℤ)) 1 () []).2
      ≠ (putFrames (fun (d : Unit) buf => (d, fun _ => buf 3)) 2
          (fun j => if j < 2 then (0 : ℤ) else 32767) 1 () []).2 := by
  refine ⟨?_, by norm_num, by decide, ?_⟩
  · rw [putFrames, int32Cast_toNat_of_lt 1 (by norm_num),
      putFramesGo_step_small _ _ _ _ _ _ _ (by norm_num) (by norm_num) (by norm_num),
      putFramesGo_exit _ _ _ _ _ _ _ (by omega)]
  · rw [putFrames, putFrames, int32Cast_toNat_of_lt 1 (by norm_num),
      putFramesGo_step_small _ _ _ _ _ _ _ (by norm_num) (by norm_num) (by norm_num),
      putFramesGo_exit _ _ _ _ _ _ _ (by omega),
      putFramesGo_step_small _ _ _ _ _ _ _ (by norm_num) (by norm_num) (by norm_num),
      putFramesGo_exit _ _ _ _ _ _ _ (by omega)]
    simp only [remapBlock, floatConversionBuffer, shortToFloat, List.range_succ,
      List.range_zero, List.flatMap_cons, List.flatMap_nil, List.nil_append]
    norm_num

/-- C3 amended: for `num_frames_in` whose `static_cast<int>` is positive
(in particular any `num_frames_in < 2^31`), `PutFrames` decodes
`⌈num_frames_in / block_size⌉` blocks (not `⌊⌋`), each appending
`block_size * 6` samples to the FIFO; when `num_frames_in` is a whole number
of blocks this is `num_frames_in / block_size` blocks, exactly
`num_frames_in * 6` appended samples, and only the supplied
`num_frames_in * 2` input samples are read.  For `2^31 ≤ num_frames_in <
2^32` the cast wraps negative and `PutFrames` decodes nothing. -/
theorem c3_put_frames_ceil_blocks {D : Type} (decode : D → (Nat → ℚ) → D × (Nat → ℚ))
    (B : Nat) (input : Nat → ℤ) (numFramesIn : Nat) (d : D) (fifo : List ℚ)
    (hB : 0 < B) (hB31 : B < 2 ^ 31) (hn31 : numFramesIn < 2 ^ 31) :
    (putFrames decode B input numFramesIn d fifo).2.length
      = fifo.length + 6 * B * ((numFramesIn + B - 1) / B) ∧
    (B ∣ numFramesIn →
      (putFrames decode B input numFramesIn d fifo).2.length
        = fifo.length + 6 * numFramesIn) ∧
    (B ∣ numFramesIn → ∀ input' : Nat → ℤ,
      (∀ j, j < numFramesIn * 2 → input j = input' j) →
      putFrames decode B input numFramesIn d fifo
        = putFrames decode B input' numFramesIn d fifo) ∧
    (∀ m, 2 ^ 31 ≤ m → m < 2 ^ 32 →
      putFrames decode B input m d fifo = (d, fifo)) := by
  refine ⟨?_, ?_, ?_, ?_⟩
  · rw [putFrames, int32Cast_toNat_of_lt numFramesIn hn31, putFramesGo_fifo_length,
      countBlocks_eq_ceil B hB hB31]
  · rintro ⟨k, hk⟩
    rw [putFrames, int32Cast_toNat_of_lt numFramesIn hn31, putFramesGo_fifo_length, hk,
      countBlocks_mul B hB hB31 k]
    ring
  · intro hdvd input' hagree
    rw [putFrames, putFrames, int32Cast_toNat_of_lt numFramesIn hn31]
    exact putFramesGo_input_agree decode B hB hB31 input input' numFramesIn 0 d fifo hdvd
      (fun j h1 h2 => hagree j (by omega))
  · intro m h1 h2
    rw [putFrames, int32Cast_toNat_of_wrap m h1 h2,
      putFramesGo_exit _ _ _ _ _ _ _ (by omega)]

/-- C3 witness: the amended theorem at block size 2 and 4 input frames with
the trivial decoder: 2 blocks are decoded and 24 samples appended. -/
theorem c3_witness :
    0 < 2 ∧ 2 < 2 ^ 31 ∧ 4 < 2 ^ 31 ∧
    (putFrames (fun (d : Unit) _ => (d, fun _ => (0 : ℚ))) 2 (fun _ => 0) 4 () []).2.length
      = ([] : List ℚ).length + 6 * 2 * ((4 + 2 - 1) / 2) :=
  ⟨by norm_num, by norm_num, by norm_num,
    (c3_put_frames_ceil_blocks (fun (d : Unit) _ => (d, fun _ => (0 : ℚ))) 2 (fun _ => 0) 4 () []
      (by norm_num) (by norm_num) (by norm_num)).1⟩


/-- Indexing the remap of one decoded block: output position `j` of frame
`i` holds decoder channel `remapTable j` of frame `i`. -/
theorem remapBlock_getD (B : Nat) (dpl2 : Nat → ℚ) :
    ∀ i j, i < B → j < 6 →
      (remapBlock B dpl2).getD (i * 6 + j) 0 = dpl2 (i * 6 + remapTable j) := by
  induction B with
  | zero => intro i j hi _; omega
  | succ B ih =>
    intro i j hi hj
    have hsplit : remapBlock (B + 1) dpl2
        = remapBlock B dpl2 ++
          [dpl2 (B * 6 + 0), dpl2 (B * 6 + 2), dpl2 (B * 6 + 1),
           dpl2 (B * 6 + 5), dpl2 (B * 6 + 3), dpl2 (B * 6 + 4)] := by
      rw [remapBlock, remapBlock, List.range_succ, List.flatMap_append,
        List.flatMap_cons, List.flatMap_nil, List.append_nil]
    rw [hsplit]
    have hlen : (remapBlock B dpl2).length = B * 6 := remapBlock_length B dpl2
    rcases Nat.lt_succ_iff_lt_or_eq.mp hi with hlt | heq
    · rw [List.getD_append _ _ _ _ (by rw [hlen]; omega)]
      exact ih i j hlt hj
    · rw [heq]
      rw [List.getD_append_right _ _ _ _ (by rw [hlen]; omega), hlen]
      have e : B * 6 + j - B * 6 = j := by omega
      rw [e]
      interval_cases j <;> rfl

/-- C4 counterexample.  For the claim's synthetic frame (decoder channel 0
holds 1.0, channel 2 holds 2.0, all others 0), output position 2 — the
Front-Center slot of the FL, FR, FC, LFE, BL, BR output order — receives
decoder channel 1 (value 0), not the claimed 2.0; the 2.0 lands in output
position 1 (Front-Right). -/
theorem c4_counterexample :
    (remapBlock 1 (fun k => if k = 0 then 1 else if k = 2 then 2 else 0)).getD 2 0 = 0 ∧
    ((0 : ℚ) ≠ 2) ∧
    (remapBlock 1 (fun k => if k = 0 then 1 else if k = 2 then 2 else 0)).getD 1 0 = 2 := by
  refine ⟨?_, by norm_num, ?_⟩ <;> decide

/-- C4 amended: every decoded frame is appended to the FIFO permuted by the
fixed table `[0, 2, 1, 5, 3, 4]` (decoder order FL, FC, FR, BL, BR, LFE to
output order FL, FR, FC, LFE, BL, BR); for the synthetic frame with decoder
channel 0 = 1.0 and channel 2 = 2.0, the 1.0 lands in output Front-Left and
the 2.0 in output Front-Right (decoder channel 2 being Front-Right), while
output Front-Center receives decoder channel 1. -/
theorem c4_remap_is_fixed_permutation (dpl2 : Nat → ℚ) (B i j : Nat)
    (hi : i < B) (hj : j < 6) :
    (remapBlock B dpl2).getD (i * 6 + j) 0 = dpl2 (i * 6 + remapTable j) ∧
    remapTable 0 = 0 ∧ remapTable 1 = 2 ∧ remapTable 2 = 1 ∧
    remapTable 3 = 5 ∧ remapTable 4 = 3 ∧ remapTable 5 = 4 ∧
    (remapBlock 1 (fun k => if k = 0 then 1 else if k = 2 then 2 else 0)).getD 0 0 = 1 ∧
    (remapBlock 1 (fun k => if k = 0 then 1 else if k = 2 then 2 else 0)).getD 1 0 = 2 := by
  refine ⟨remapBlock_getD B dpl2 i j hi hj, by decide, by decide, by decide,
    by decide, by decide, by decide, by decide, by decide⟩

/-- C4 witness: frame 0, output position 3 (LFE) of a two-frame block
receives decoder channel 5. -/
theorem c4_witness :
    (0 : Nat) < 2 ∧ (3 : Nat) < 6 ∧
    (remapBlock 2 (fun k => (k : ℚ))).getD (0 * 6 + 3) 0 = ((0 * 6 + remapTable 3 : Nat) : ℚ) :=
  ⟨by norm_num, by norm_num,
    (c4_remap_is_fixed_permutation (fun k => (k : ℚ)) 2 0 3 (by norm_num) (by norm_num)).1⟩

/-- C5 counterexample.  The int16 → float conversion before surround
decoding divides by `std::numeric_limits<short>::max() = 32767`; at input
32767 it produces exactly 1, whereas the claimed `x / 32768` is
`32767 / 32768 ≠ 1`. -/
theorem c5_counterexample :
    floatConversionBuffer (fun _ => 32767) 0 1 0 = 1 ∧
    ((1 : ℚ) ≠ 32767 / 32768) := by
  constructor
  · simp [floatConversionBuffer, shortToFloat]
  · norm_num

/-- C5 amended: the conversion produces exactly `x / 32767` (division by
`SHRT_MAX`, not by 32768); for every nonzero sample the two differ. -/
theorem c5_conversion_divides_by_32767 (input : Nat → ℤ) (frameIndex B i : Nat)
    (hi : i < B * 2) :
    floatConversionBuffer input frameIndex B i = (input (i + frameIndex * 2) : ℚ) / 32767 ∧
    (input (i + frameIndex * 2) ≠ 0 →
      floatConversionBuffer input frameIndex B i ≠ (input (i + frameIndex * 2) : ℚ) / 32768) := by
  have he : floatConversionBuffer input frameIndex B i
      = (input (i + frameIndex * 2) : ℚ) / 32767 := by
    simp [floatConversionBuffer, shortToFloat, if_pos hi]
  refine ⟨he, ?_⟩
  intro hx heq
  rw [he] at heq
  field_simp at heq
  exact hx heq

/-- C5 witness: sample 5 at buffer index 0 of a one-frame block. -/
theorem c5_witness :
    (0 : Nat) < 1 * 2 ∧
    (floatConversionBuffer (fun _ => 5) 0 1 0 = ((5 : ℤ) : ℚ) / 32767 ∧
      ((5 : ℤ) ≠ 0 → floatConversionBuffer (fun _ => 5) 0 1 0 ≠ ((5 : ℤ) : ℚ) / 32768)) :=
  ⟨by norm_num, c5_conversion_divides_by_32767 (fun _ => 5) 0 1 0 (by norm_num)⟩

/-- C6: converting an int16 sample to float as the decoder input path does
(divide by 32767) and back to int16 as the int16 output path does (multiply
by `1 << 15`, clamp to `[-32768, 32767]`, truncate) is within 1 of the
original everywhere, and exact except at the extreme value `-32767`, which
comes back as `-32768`. -/
theorem c6_int16_roundtrip (x : ℤ) (hlo : -32768 ≤ x) (hhi : x ≤ 32767) :
    (floatToS16 (shortToFloat x) - x).natAbs ≤ 1 ∧
    (x ≠ -32767 → floatToS16 (shortToFloat x) = x) ∧
    (x = -32767 → floatToS16 (shortToFloat x) = -32768) := by
  by_cases hx1 : x = 32767
  · subst hx1
    have hv : floatToS16 (shortToFloat 32767) = 32767 := by
      rw [floatToS16, if_pos (by norm_num [shortToFloat])]
    refine ⟨by rw [hv]; norm_num, fun _ => hv, by norm_num⟩
  by_cases hx2 : x = -32768
  · subst hx2
    have hv : floatToS16 (shortToFloat (-32768)) = -32768 := by
      rw [floatToS16, if_neg (by norm_num [shortToFloat]),
        if_pos (by norm_num [shortToFloat])]
    refine ⟨by rw [hv]; norm_num, fun _ => hv, by norm_num⟩
  by_cases hx3 : x = -32767
  · subst hx3
    have hmul : shortToFloat (-32767) * 32768 = ((-32768 : ℤ) : ℚ) := by
      norm_num [shortToFloat]
    have hv : floatToS16 (shortToFloat (-32767)) = -32768 := by
      rw [floatToS16, hmul, if_neg (by norm_num), if_neg (by norm_num),
        ratTruncate, if_neg (by norm_num), Int.ceil_intCast]
    refine ⟨by rw [hv]; norm_num, fun hne => absurd rfl hne, fun _ => hv⟩
  -- middle range: -32766 ≤ x ≤ 32766
  have hlo' : -32766 ≤ x := by omega
  have hhi' : x ≤ 32766 := by omega
  have hloQ : (-32766 : ℚ) ≤ (x : ℚ) := by exact_mod_cast hlo'
  have hhiQ : (x : ℚ) ≤ 32766 := by exact_mod_cast hhi'
  have hmul : shortToFloat x * 32768 = (x * 32768 : ℚ) / 32767 := by
    rw [shortToFloat]; ring
  have hc1 : ¬(shortToFloat x * 32768 > 32767) := by
    rw [hmul]
    simp only [not_lt]
    rw [div_le_iff₀ (by norm_num)]
    push_cast
    nlinarith
  have hc2 : ¬(shortToFloat x * 32768 < -32768) := by
    rw [hmul]
    simp only [not_lt]
    rw [le_div_iff₀ (by norm_num)]
    push_cast
    nlinarith
  have hv : floatToS16 (shortToFloat x) = x := by
    rw [floatToS16, if_neg hc1, if_neg hc2, hmul, ratTruncate]
    by_cases hpos : 0 ≤ x
    · have hposQ : (0 : ℚ) ≤ (x : ℚ) := by exact_mod_cast hpos
      rw [if_pos (by positivity), Int.floor_eq_iff]
      constructor
      · rw [le_div_iff₀ (by norm_num)]
        push_cast
        nlinarith
      · rw [div_lt_iff₀ (by norm_num)]
        push_cast
        nlinarith
    · have hnegQ : (x : ℚ) < 0 := by
        have : x < 0 := by omega
        exact_mod_cast this
      have hqneg : (x * 32768 : ℚ) / 32767 < 0 := by
        apply div_neg_of_neg_of_pos _ (by norm_num)
        nlinarith
      rw [if_neg (by linarith), Int.ceil_eq_iff]
      constructor
      · rw [lt_div_iff₀ (by norm_num)]
        push_cast
        nlinarith
      · rw [div_le_iff₀ (by norm_num)]
        push_cast
        nlinarith
  refine ⟨by rw [hv]; simp, fun _ => hv, fun hx => absurd hx hx3⟩

/-- C6 witness: the round trip at sample 1000 and at the exceptional value
`-32767`. -/
theorem c6_witness :
    ((-32768 : ℤ) ≤ 1000 ∧ (1000 : ℤ) ≤ 32767 ∧
      floatToS16 (shortToFloat 1000) = 1000) ∧
    ((-32768 : ℤ) ≤ -32767 ∧ (-32767 : ℤ) ≤ 32767 ∧
      floatToS16 (shortToFloat (-32767)) = -32768) :=
  ⟨⟨by norm_num, by norm_num,
      (c6_int16_roundtrip 1000 (by norm_num) (by norm_num)).2.1 (by norm_num)⟩,
   ⟨by norm_num, by norm_num,
      (c6_int16_roundtrip (-32767) (by norm_num) (by norm_num)).2.2 rfl⟩⟩

/-- C7 counterexample.  A float32-capable surround iteration whose
`palBufferData` is answered with `AL_INVALID_ENUM` issues exactly one
`bufferData` call — in float32, never a retry in a downgraded Int32/Int16
encoding — and responds by clearing `use_surround` (falling back to stereo
mixing), not by downgrading the output encoding. -/
theorem c7_counterexample :
    (let cfg : LoopConfig :=
      { oalBuffers := 2, float32Capable := true, fixed32Capable := false,
        audioStretch := true, latency := 5, usingHLE := true }
    let st : LoopState :=
      { useSurround := true, frequency := fun _ => 48000, framesPerBuffer := fun _ => 1,
        nextBuffer := fun _ => 0, numBuffersQueued := fun _ => 0,
        realtimeBufferSize := fun _ => 2 }
    let inp : SurroundInput :=
      { currentSpeed := 1, numBuffersProcessed := 0, renderedFrames := 1,
        dpl2 := fun _ => 0, bufferDataErr := ALError.invalidEnum, sourcePlaying := true }
    (surroundIter cfg st inp).1.useSurround = false ∧
      bufferEncodings (surroundIter cfg st inp).2 = [Encoding.float32] ∧
      Encoding.int32 ∉ bufferEncodings (surroundIter cfg st inp).2 ∧
      Encoding.int16 ∉ bufferEncodings (surroundIter cfg st inp).2) := by
  decide

/-- `pitchActions` never submits buffer data. -/
theorem bufferEncodings_pitchActions (source : Nat) (stretch : Bool) (rate : ℚ) :
    bufferEncodings (pitchActions source stretch rate) = [] := by
  rw [pitchActions]
  split_ifs <;> rfl

theorem bufferEncodings_append (a b : List Action) :
    bufferEncodings (a ++ b) = bufferEncodings a ++ bufferEncodings b :=
  List.filterMap_append a b _

/-- Characterization of a surround iteration that reaches the submit stage
(pool not blocked, mixer produced at least `frames_per_buffer[0]` frames). -/
theorem surroundIter_submit (cfg : LoopConfig) (st : LoopState) (inp : SurroundInput)
    (hns : ¬(st.numBuffersQueued 0 = cfg.oalBuffers ∧ inp.numBuffersProcessed = 0))
    (hge : ¬(inp.renderedFrames < st.framesPerBuffer 0)) :
    surroundIter cfg st inp =
      ({ st with
          useSurround := if inp.bufferDataErr = ALError.invalidEnum then false
            else st.useSurround,
          nextBuffer := (Function.update st.nextBuffer 0
            ((st.nextBuffer 0 + 1) % cfg.oalBuffers)),
          numBuffersQueued := (Function.update st.numBuffersQueued 0
            (st.numBuffersQueued 0 - inp.numBuffersProcessed + 1)) },
       pitchActions 0 cfg.audioStretch inp.currentSpeed ++
        (if inp.numBuffersProcessed ≠ 0 then [Action.unqueueBuffers 0 inp.numBuffersProcessed]
         else []) ++
        [Action.bufferData 0 (st.nextBuffer 0)
          (surroundPayload cfg inp.renderedFrames (zeroLFE inp.renderedFrames inp.dpl2)).1
          inp.renderedFrames
          (surroundPayload cfg inp.renderedFrames (zeroLFE inp.renderedFrames inp.dpl2)).2] ++
        (if inp.bufferDataErr = ALError.invalidEnum then [Action.warnSurroundUnsupported]
         else []) ++
        [Action.queueBuffer 0 (st.nextBuffer 0)] ++
        (if inp.sourcePlaying then [] else [Action.sourcePlay 0])) := by
  unfold surroundIter
  rw [if_neg hns]
  by_cases hp : inp.numBuffersProcessed ≠ 0 <;>
    by_cases herr : inp.bufferDataErr = ALError.invalidEnum <;>
    simp [hp, hge, herr, Function.update_idem, Function.update_same, List.append_assoc]
  all_goals
    rw [not_not] at hp
    rw [hp, Nat.sub_zero]

/-- C7 amended: on an encoding-rejected (`AL_INVALID_ENUM`) response to
`palBufferData`, the surround iteration permanently clears `use_surround`
(so the next iteration takes the stereo branch), logs a warning, and still
queues the already-submitted buffer; it submits exactly one `bufferData` per
iteration, with the encoding fixed by the capability probes (float32 if
`AL_EXT_float32`, else X-Fi int32, else int16) — the frame data is never
retried in a downgraded encoding, and the error is not surfaced. -/
theorem c7_fallback_to_stereo_not_encoding_downgrade (cfg : LoopConfig) (st : LoopState)
    (inp : SurroundInput)
    (hns : ¬(st.numBuffersQueued 0 = cfg.oalBuffers ∧ inp.numBuffersProcessed = 0))
    (hge : ¬(inp.renderedFrames < st.framesPerBuffer 0))
    (herr : inp.bufferDataErr = ALError.invalidEnum) :
    (surroundIter cfg st inp).1.useSurround = false ∧
    bufferEncodings (surroundIter cfg st inp).2 =
      [if cfg.float32Capable then Encoding.float32
       else if cfg.fixed32Capable then Encoding.int32 else Encoding.int16] ∧
    Action.warnSurroundUnsupported ∈ (surroundIter cfg st inp).2 ∧
    Action.queueBuffer 0 (st.nextBuffer 0) ∈ (surroundIter cfg st inp).2 ∧
    (surroundIter cfg st inp).1.numBuffersQueued 0
      = st.numBuffersQueued 0 - inp.numBuffersProcessed + 1 := by
  have henc : (surroundPayload cfg inp.renderedFrames
      (zeroLFE inp.renderedFrames inp.dpl2)).1 =
      if cfg.float32Capable then Encoding.float32
      else if cfg.fixed32Capable then Encoding.int32 else Encoding.int16 := by
    rw [surroundPayload]
    split_ifs <;> rfl
  rw [surroundIter_submit cfg st inp hns hge]
  refine ⟨by simp [herr], ?_, ?_, ?_, by simp [Function.update_same]⟩
  · simp only [bufferEncodings_append, bufferEncodings_pitchActions, herr, if_pos]
    rw [henc]
    split_ifs with hp <;> simp [bufferEncodings]
  · simp [herr]
  · simp

/-- C7 witness: the amended theorem at the no-capability configuration
(int16 submission), with one processed buffer reclaimed. -/
theorem c7_witness :
    (let cfg : LoopConfig :=
      { oalBuffers := 3, float32Capable := false, fixed32Capable := false,
        audioStretch := false, latency := 20, usingHLE := false }
    let st : LoopState :=
      { useSurround := true, frequency := fun _ => 32000, framesPerBuffer := fun _ => 2,
        nextBuffer := fun _ => 1, numBuffersQueued := fun _ => 3,
        realtimeBufferSize := fun _ => 4 }
    let inp : SurroundInput :=
      { currentSpeed := 1, numBuffersProcessed := 1, renderedFrames := 2,
        dpl2 := fun _ => 1/2, bufferDataErr := ALError.invalidEnum, sourcePlaying := false }
    ¬(st.numBuffersQueued 0 = cfg.oalBuffers ∧ inp.numBuffersProcessed = 0) ∧
    ¬(inp.renderedFrames < st.framesPerBuffer 0) ∧
    ((surroundIter cfg st inp).1.useSurround = false ∧
      bufferEncodings (surroundIter cfg st inp).2 =
        [if cfg.float32Capable then Encoding.float32
         else if cfg.fixed32Capable then Encoding.int32 else Encoding.int16] ∧
      Action.warnSurroundUnsupported ∈ (surroundIter cfg st inp).2 ∧
      Action.queueBuffer 0 (st.nextBuffer 0) ∈ (surroundIter cfg st inp).2 ∧
      (surroundIter cfg st inp).1.numBuffersQueued 0
        = st.numBuffersQueued 0 - inp.numBuffersProcessed + 1)) := by
  refine ⟨by decide, by decide, ?_⟩
  exact c7_fallback_to_stereo_not_encoding_downgrade _ _ _ (by decide) (by decide) (by decide)

/-- Characterization of a surround iteration skipped by mixer underrun: only
the reclaim of processed buffers happens. -/
theorem surroundIter_skip (cfg : LoopConfig) (st : LoopState) (inp : SurroundInput)
    (hns : ¬(st.numBuffersQueued 0 = cfg.oalBuffers ∧ inp.numBuffersProcessed = 0))
    (hlt : inp.renderedFrames < st.framesPerBuffer 0) :
    surroundIter cfg st inp =
      ({ st with numBuffersQueued := (Function.update st.numBuffersQueued 0
          (st.numBuffersQueued 0 - inp.numBuffersProcessed)) },
       pitchActions 0 cfg.audioStretch inp.currentSpeed ++
        (if inp.numBuffersProcessed ≠ 0 then [Action.unqueueBuffers 0 inp.numBuffersProcessed]
         else [])) := by
  unfold surroundIter
  rw [if_neg hns]
  by_cases hp : inp.numBuffersProcessed ≠ 0 <;>
    simp [hp, hlt, Function.update_eq_self]
  rw [not_not] at hp
  rw [hp, Nat.sub_zero, Function.update_eq_self]

/-- Characterization of the stereo step on a sample-rate change: the source
is reset and nothing else happens. -/
theorem sourceStep_reset (cfg : LoopConfig) (src : Fin 3) (st : LoopState) (inp : SourceInput)
    (hch : st.frequency src ≠ inp.mixerRate) :
    sourceStep cfg src st inp =
      ({ st with
          frequency := Function.update st.frequency src inp.mixerRate,
          framesPerBuffer := (Function.update st.framesPerBuffer src
            (if cfg.latency > 10 then inp.mixerRate / 1000 * cfg.latency / cfg.oalBuffers
             else inp.mixerRate / 1000 * 1 / cfg.oalBuffers)),
          numBuffersQueued := Function.update st.numBuffersQueued src 0,
          nextBuffer := Function.update st.nextBuffer src 0,
          realtimeBufferSize := (Function.update st.realtimeBufferSize src
            ((if cfg.latency > 10 then inp.mixerRate / 1000 * cfg.latency / cfg.oalBuffers
              else inp.mixerRate / 1000 * 1 / cfg.oalBuffers) * 2)) },
       [Action.sourceStop src.val, Action.detachBuffers src.val]) := by
  unfold sourceStep
  rw [if_pos hch]

/-- Characterization of a stereo step skipped because the mixer produced no
frames (or source 2 with DSP-HLE off): only the reclaim happens. -/
theorem sourceStep_skip (cfg : LoopConfig) (src : Fin 3) (st : LoopState) (inp : SourceInput)
    (hch : st.frequency src = inp.mixerRate)
    (hns : ¬(st.numBuffersQueued src = cfg.oalBuffers ∧ inp.numBuffersProcessed = 0))
    (hr : (if src = 2 ∧ ¬cfg.usingHLE then 0 else inp.renderedFrames) = 0) :
    sourceStep cfg src st inp =
      ({ st with numBuffersQueued := (Function.update st.numBuffersQueued src
          (st.numBuffersQueued src - inp.numBuffersProcessed)) },
       pitchActions src.val cfg.audioStretch inp.currentSpeed ++
        (if inp.numBuffersProcessed ≠ 0 then
          [Action.unqueueBuffers src.val inp.numBuffersProcessed] else [])) := by
  unfold sourceStep
  rw [if_neg (show ¬(st.frequency src ≠ inp.mixerRate) from by simp [hch])]
  rw [if_neg hns]
  by_cases hw : src = 2 ∧ ¬cfg.usingHLE = true
  · rw [if_pos hw] at hr
    by_cases hp : inp.numBuffersProcessed ≠ 0 <;>
      simp [hp, hw, Function.update_eq_self] <;>
      (try (rw [not_not] at hp; rw [hp, Nat.sub_zero, Function.update_eq_self]))
  · rw [if_neg hw] at hr
    by_cases hp : inp.numBuffersProcessed ≠ 0 <;>
      simp [hp, hw, hr, Function.update_eq_self] <;>
      (try (rw [not_not] at hp; rw [hp, Nat.sub_zero, Function.update_eq_self]))

/-- A stereo step that renders frames queues a buffer: queued count goes up
by one (after the reclaim), the cursor advances, a `queueBuffer` call is
issued, and other sources are untouched. -/
theorem sourceStep_queues (cfg : LoopConfig) (src : Fin 3) (st : LoopState) (inp : SourceInput)
    (hch : st.frequency src = inp.mixerRate)
    (hns : ¬(st.numBuffersQueued src = cfg.oalBuffers ∧ inp.numBuffersProcessed = 0))
    (hr : (if src = 2 ∧ ¬cfg.usingHLE then 0 else inp.renderedFrames) ≠ 0) :
    (sourceStep cfg src st inp).1.numBuffersQueued src
      = st.numBuffersQueued src - inp.numBuffersProcessed + 1 ∧
    (sourceStep cfg src st inp).1.nextBuffer src = (st.nextBuffer src + 1) % cfg.oalBuffers ∧
    Action.queueBuffer src.val (st.nextBuffer src) ∈ (sourceStep cfg src st inp).2 := by
  unfold sourceStep
  rw [if_neg (show ¬(st.frequency src ≠ inp.mixerRate) from by simp [hch])]
  rw [if_neg hns]
  by_cases hw : src = 2 ∧ ¬cfg.usingHLE = true
  · rw [if_pos hw] at hr
    exact absurd rfl hr
  · rw [if_neg hw] at hr
    simp only [Bool.not_eq_true] at hw
    by_cases hp : inp.numBuffersProcessed ≠ 0 <;>
      simp [hp, hw, hr, Function.update_same] <;>
      (try (rw [not_not] at hp; rw [hp, Nat.sub_zero]))

/-- `pitchActions` issues no queueing calls. -/
theorem isQueue_pitchActions (source : Nat) (stretch : Bool) (rate : ℚ) :
    ∀ a ∈ pitchActions source stretch rate, a.isQueue = false := by
  rw [pitchActions]
  split_ifs <;> simp [Action.isQueue]

/-- C8 counterexample.  In the stereo path a mixer result of 1 frame —
fewer than the 240 `frames_per_buffer` minimum — is NOT skipped: the
iteration fills and queues a buffer and increments the queued count. -/
theorem c8_counterexample :
    (let cfg : LoopConfig :=
      { oalBuffers := 2, float32Capable := false, fixed32Capable := false,
        audioStretch := true, latency := 5, usingHLE := true }
    let st : LoopState :=
      { useSurround := false, frequency := fun _ => 48000, framesPerBuffer := fun _ => 240,
        nextBuffer := fun _ => 0, numBuffersQueued := fun _ => 0,
        realtimeBufferSize := fun _ => 480 }
    let inp : SourceInput :=
      { mixerRate := 48000, currentSpeed := 1, numBuffersProcessed := 0,
        renderedFrames := 1, mixedData := fun _ => 0, bufferDataErr := ALError.noError,
        sourcePlaying := true }
    inp.renderedFrames < st.framesPerBuffer 0 ∧
      (sourceStep cfg 0 st inp).1.numBuffersQueued 0 = st.numBuffersQueued 0 + 1 ∧
      Action.queueBuffer 0 0 ∈ (sourceStep cfg 0 st inp).2) := by
  decide

/-- C8 amended: (a) the surround path skips the iteration when the mixer
renders fewer than `frames_per_buffer[0]` frames — no buffer is filled or
queued, the cursor is untouched, and the queued count changes only by the
preceding reclaim of processed buffers; (b) a stereo source skips, with the
same guarantees, only when the mixer produces ZERO frames (or source 2 with
DSP-HLE off); (c) any positive stereo mixer result — even below
`frames_per_buffer` — is filled and queued.  No error is raised anywhere
(the step functions are total and surface nothing). -/
theorem c8_skip_only_on_surround_short_or_stereo_zero :
    (∀ (cfg : LoopConfig) (st : LoopState) (inp : SurroundInput),
      ¬(st.numBuffersQueued 0 = cfg.oalBuffers ∧ inp.numBuffersProcessed = 0) →
      inp.renderedFrames < st.framesPerBuffer 0 →
      (surroundIter cfg st inp).1.nextBuffer = st.nextBuffer ∧
      (surroundIter cfg st inp).1.numBuffersQueued 0
        = st.numBuffersQueued 0 - inp.numBuffersProcessed ∧
      (surroundIter cfg st inp).1.useSurround = st.useSurround ∧
      (surroundIter cfg st inp).1.framesPerBuffer = st.framesPerBuffer ∧
      bufferEncodings (surroundIter cfg st inp).2 = [] ∧
      (∀ a ∈ (surroundIter cfg st inp).2, a.isQueue = false)) ∧
    (∀ (cfg : LoopConfig) (src : Fin 3) (st : LoopState) (inp : SourceInput),
      st.frequency src = inp.mixerRate →
      ¬(st.numBuffersQueued src = cfg.oalBuffers ∧ inp.numBuffersProcessed = 0) →
      (if src = 2 ∧ ¬cfg.usingHLE then 0 else inp.renderedFrames) = 0 →
      (sourceStep cfg src st inp).1.nextBuffer = st.nextBuffer ∧
      (sourceStep cfg src st inp).1.numBuffersQueued src
        = st.numBuffersQueued src - inp.numBuffersProcessed ∧
      bufferEncodings (sourceStep cfg src st inp).2 = [] ∧
      (∀ a ∈ (sourceStep cfg src st inp).2, a.isQueue = false)) ∧
    (∀ (cfg : LoopConfig) (src : Fin 3) (st : LoopState) (inp : SourceInput),
      st.frequency src = inp.mixerRate →
      ¬(st.numBuffersQueued src = cfg.oalBuffers ∧ inp.numBuffersProcessed = 0) →
      (if src = 2 ∧ ¬cfg.usingHLE then 0 else inp.renderedFrames) ≠ 0 →
      (sourceStep cfg src st inp).1.numBuffersQueued src
        = st.numBuffersQueued src - inp.numBuffersProcessed + 1 ∧
      Action.queueBuffer src.val (st.nextBuffer src) ∈ (sourceStep cfg src st inp).2) := by
  refine ⟨?_, ?_, ?_⟩
  · intro cfg st inp hns hlt
    rw [surroundIter_skip cfg st inp hns hlt]
    refine ⟨rfl, by simp [Function.update_same], rfl, rfl, ?_, ?_⟩
    · rw [bufferEncodings_append, bufferEncodings_pitchActions]
      split_ifs <;> rfl
    · intro a ha
      rw [List.mem_append] at ha
      rcases ha with h | h
      · exact isQueue_pitchActions 0 cfg.audioStretch inp.currentSpeed a h
      · revert h
        split_ifs <;> intro h <;> simp at h <;> subst h <;> rfl
  · intro cfg src st inp hch hns hr
    rw [sourceStep_skip cfg src st inp hch hns hr]
    refine ⟨rfl, by simp [Function.update_same], ?_, ?_⟩
    · rw [bufferEncodings_append, bufferEncodings_pitchActions]
      split_ifs <;> rfl
    · intro a ha
      rw [List.mem_append] at ha
      rcases ha with h | h
      · exact isQueue_pitchActions src.val cfg.audioStretch inp.currentSpeed a h
      · revert h
        split_ifs <;> intro h <;> simp at h <;> subst h <;> rfl
  · intro cfg src st inp hch hns hr
    exact ⟨(sourceStep_queues cfg src st inp hch hns hr).1,
      (sourceStep_queues cfg src st inp hch hns hr).2.2⟩

/-- C8 witness: the surround skip at a concrete underrun (0 rendered frames,
one processed buffer reclaimed) and the stereo zero-frame skip. -/
theorem c8_witness :
    (let cfg : LoopConfig :=
      { oalBuffers := 3, float32Capable := true, fixed32Capable := false,
        audioStretch := true, latency := 0, usingHLE := true }
    let st : LoopState :=
      { useSurround := true, frequency := fun _ => 48000, framesPerBuffer := fun _ => 240,
        nextBuffer := fun _ => 2, numBuffersQueued := fun _ => 3,
        realtimeBufferSize := fun _ => 480 }
    let inp : SurroundInput :=
      { currentSpeed := 1, numBuffersProcessed := 1, renderedFrames := 0,
        dpl2 := fun _ => 0, bufferDataErr := ALError.noError, sourcePlaying := true }
    (surroundIter cfg st inp).1.nextBuffer = st.nextBuffer ∧
      (surroundIter cfg st inp).1.numBuffersQueued 0
        = st.numBuffersQueued 0 - inp.numBuffersProcessed ∧
      (surroundIter cfg st inp).1.useSurround = st.useSurround ∧
      (surroundIter cfg st inp).1.framesPerBuffer = st.framesPerBuffer ∧
      bufferEncodings (surroundIter cfg st inp).2 = [] ∧
      (∀ a ∈ (surroundIter cfg st inp).2, a.isQueue = false)) := by
  exact c8_skip_only_on_surround_short_or_stereo_zero.1 _ _ _ (by decide) (by decide)

/-- C10: in the stereo path, a mixer sample rate differing from the cached
one makes that iteration reset exactly that source: stop it, detach its
buffers, zero its queued count and cursor, cache the new rate, recompute its
frames-per-buffer and resize its staging buffer to it (times 2 stereo
samples), while every other source's cached rate, frames-per-buffer, cursor,
queued count and staging size are untouched, and no audio is mixed or
queued for the reset source in that iteration. -/
theorem c10_rate_change_resets_only_that_source (cfg : LoopConfig) (src : Fin 3)
    (st : LoopState) (inp : SourceInput)
    (hch : st.frequency src ≠ inp.mixerRate) :
    (sourceStep cfg src st inp).2
      = [Action.sourceStop src.val, Action.detachBuffers src.val] ∧
    (sourceStep cfg src st inp).1.numBuffersQueued src = 0 ∧
    (sourceStep cfg src st inp).1.nextBuffer src = 0 ∧
    (sourceStep cfg src st inp).1.frequency src = inp.mixerRate ∧
    ((sourceStep cfg src st inp).1.framesPerBuffer src =
      (if cfg.latency > 10 then inp.mixerRate / 1000 * cfg.latency / cfg.oalBuffers
       else inp.mixerRate / 1000 * 1 / cfg.oalBuffers)) ∧
    ((sourceStep cfg src st inp).1.realtimeBufferSize src =
      (sourceStep cfg src st inp).1.framesPerBuffer src * 2) ∧
    (sourceStep cfg src st inp).1.useSurround = st.useSurround ∧
    (∀ j, j ≠ src →
      (sourceStep cfg src st inp).1.numBuffersQueued j = st.numBuffersQueued j ∧
      (sourceStep cfg src st inp).1.nextBuffer j = st.nextBuffer j ∧
      (sourceStep cfg src st inp).1.frequency j = st.frequency j ∧
      (sourceStep cfg src st inp).1.framesPerBuffer j = st.framesPerBuffer j ∧
      (sourceStep cfg src st inp).1.realtimeBufferSize j = st.realtimeBufferSize j) ∧
    (∀ a ∈ (sourceStep cfg src st inp).2, a.isQueue = false) := by
  rw [sourceStep_reset cfg src st inp hch]
  refine ⟨rfl, by simp, by simp, by simp, by simp, by simp, rfl, ?_, ?_⟩
  · intro j hj
    exact ⟨Function.update_noteq hj _ _, Function.update_noteq hj _ _,
      Function.update_noteq hj _ _, Function.update_noteq hj _ _,
      Function.update_noteq hj _ _⟩
  · intro a ha
    simp only [List.mem_cons, List.not_mem_nil, or_false] at ha
    rcases ha with h | h <;> subst h <;> rfl

/-- C10 witness: source 1's rate changes from 48000 to 32000 under a 40 ms
latency; sources 0 and 2 keep their state. -/
theorem c10_witness :
    (let cfg : LoopConfig :=
      { oalBuffers := 4, float32Capable := false, fixed32Capable := false,
        audioStretch := false, latency := 40, usingHLE := true }
    let st : LoopState :=
      { useSurround := false, frequency := fun _ => 48000, framesPerBuffer := fun _ => 480,
        nextBuffer := fun _ => 2, numBuffersQueued := fun _ => 3,
        realtimeBufferSize := fun _ => 960 }
    let inp : SourceInput :=
      { mixerRate := 32000, currentSpeed := 1, numBuffersProcessed := 0,
        renderedFrames := 480, mixedData := fun _ => 0, bufferDataErr := ALError.noError,
        sourcePlaying := true }
    (sourceStep cfg 1 st inp).2
        = [Action.sourceStop (1 : Fin 3).val, Action.detachBuffers (1 : Fin 3).val] ∧
      (sourceStep cfg 1 st inp).1.numBuffersQueued 1 = 0 ∧
      (sourceStep cfg 1 st inp).1.nextBuffer 1 = 0 ∧
      (sourceStep cfg 1 st inp).1.frequency 1 = inp.mixerRate ∧
      ((sourceStep cfg 1 st inp).1.framesPerBuffer 1 =
        (if cfg.latency > 10 then inp.mixerRate / 1000 * cfg.latency / cfg.oalBuffers
         else inp.mixerRate / 1000 * 1 / cfg.oalBuffers)) ∧
      ((sourceStep cfg 1 st inp).1.realtimeBufferSize 1 =
        (sourceStep cfg 1 st inp).1.framesPerBuffer 1 * 2) ∧
      (sourceStep cfg 1 st inp).1.useSurround = st.useSurround ∧
      (∀ j, j ≠ (1 : Fin 3) →
        (sourceStep cfg 1 st inp).1.numBuffersQueued j = st.numBuffersQueued j ∧
        (sourceStep cfg 1 st inp).1.nextBuffer j = st.nextBuffer j ∧
        (sourceStep cfg 1 st inp).1.frequency j = st.frequency j ∧
        (sourceStep cfg 1 st inp).1.framesPerBuffer j = st.framesPerBuffer j ∧
        (sourceStep cfg 1 st inp).1.realtimeBufferSize j = st.realtimeBufferSize j) ∧
      (∀ a ∈ (sourceStep cfg 1 st inp).2, a.isQueue = false)) := by
  exact c10_rate_change_resets_only_that_source _ 1 _ _ (by decide)

/-- C9 counterexample.  With no thread ever started (`Start` never called:
run flag clear, thread not joinable, no sources/buffers/context/device),
`Stop` does not terminate normally: the unconditional `m_thread.join()`
fails (`std::system_error`), so the call is not a no-op. -/
theorem c9_counterexample :
    stopStream
        { runThreadSet := false, threadJoinable := false, sourcesLive := false,
          buffersLive := false, contextLive := false, deviceOpen := false }
      = Except.error StopError.joinOnNotJoinable ∧
    stopStream
        { runThreadSet := false, threadJoinable := false, sourcesLive := false,
          buffersLive := false, contextLive := false, deviceOpen := false }
      ≠ Except.ok
        { runThreadSet := false, threadJoinable := false, sourcesLive := false,
          buffersLive := false, contextLive := false, deviceOpen := false } := by
  refine ⟨rfl, ?_⟩
  simp [stopStream]

/-- C9 amended: `Stop` is unconditional — it always clears the run flag and
joins the thread.  When the stream is not running because no thread was ever
started, the join fails (`std::system_error` from joining a non-joinable
`std::thread`) instead of being a no-op; when a thread exists, `Stop` joins
it and releases the sources, buffers, context and device. -/
theorem c9_stop_is_unconditional (s : StreamResources) :
    (s.threadJoinable = false → stopStream s = Except.error StopError.joinOnNotJoinable) ∧
    (s.threadJoinable = true → stopStream s = Except.ok
      { runThreadSet := false, threadJoinable := false, sourcesLive := false,
        buffersLive := false, contextLive := false, deviceOpen := false }) := by
  constructor
  · intro hnj
    rw [stopStream]
    simp [hnj]
  · intro hj
    rw [stopStream]
    simp [hj]

/-- C9 witness: both branches of the amended theorem at concrete states. -/
theorem c9_witness :
    (stopStream
        { runThreadSet := true, threadJoinable := false, sourcesLive := false,
          buffersLive := false, contextLive := false, deviceOpen := false }
      = Except.error StopError.joinOnNotJoinable) ∧
    (stopStream
        { runThreadSet := true, threadJoinable := true, sourcesLive := true,
          buffersLive := true, contextLive := true, deviceOpen := true }
      = Except.ok
        { runThreadSet := false, threadJoinable := false, sourcesLive := false,
          buffersLive := false, contextLive := false, deviceOpen := false }) :=
  ⟨(c9_stop_is_unconditional _).1 rfl, (c9_stop_is_unconditional _).2 rfl⟩
